import Mathlib

/-!
Shallow embedding of the repository script "src/markdown/diamond-sizes.py".

The script loads the diamonds CSV into a data frame, filters it with
"diamonds.query(#carat <= 2.5#)" (the pandas query keeps the rows whose
carat field compares less-or-equal to 2.5; a missing value, NaN, compares
false), builds an altair chart "alt.Chart(smaller).encode(alt.X(#carat#),
alt.Y(#count()#)).mark_line()" and saves it as a PNG image.

A data frame is an ordered list of rows.  A row carries the columns of the
diamonds CSV; the numeric columns are Option-valued so that a missing cell
(NaN in pandas) is represented by "none".  Every carat value written by the
spec or the claims (1.0, 2.0, 2.5, 3.0, 5.0) is exactly representable, so
rational numbers model the float column faithfully for the comparisons the
script performs.
-/

/-- A row of the diamonds CSV: the numeric columns are Option-valued,
with "none" standing for a missing cell (NaN). -/
structure Row where
  carat : Option ℚ
  cut : String
  color : String
  clarity : String
  depth : Option ℚ
  table : Option ℚ
  price : Option ℤ
  x : Option ℚ
  y : Option ℚ
  z : Option ℚ
deriving DecidableEq, Repr

/-- A data frame: an ordered collection of rows. -/
abbrev DataFrame := List Row

/-- The pandas boolean test "carat <= 2.5" of one row, at threshold t.
A missing carat (NaN) compares false in pandas, hence the "none" branch. -/
def caratLE (t : ℚ) (r : Row) : Bool :=
  match r.carat with
  | some c => decide (c ≤ t)
  | none => false

/-- Embedding of "diamonds.query(#carat <= t#)": keep the rows whose carat
field passes the boolean test, in their original order. -/
def DataFrame.query_carat_le (df : DataFrame) (t : ℚ) : DataFrame :=
  df.filter (caratLE t)

/-- Line 9 of the script: "smaller = diamonds.query(#carat <= 2.5#)". -/
def smaller (diamonds : DataFrame) : DataFrame :=
  diamonds.query_carat_le (mkRat 5 2)

/-- A synthetic row holding only a carat value; the categorical columns are
fixed and the other numeric cells are left missing. -/
def mkRow (c : ℚ) : Row :=
  { carat := some c, cut := "Ideal", color := "E", clarity := "SI2",
    depth := none, table := none, price := none,
    x := none, y := none, z := none }

/-- A synthetic row whose carat cell is missing (NaN). -/
def nanRow : Row :=
  { carat := none, cut := "Fair", color := "J", clarity := "I1",
    depth := none, table := none, price := none,
    x := none, y := none, z := none }

/-- The fixed synthetic dataset of the spec: 5 rows with carat values
1.0, 2.0, 2.5, 3.0, 5.0. -/
def synth5 : DataFrame :=
  [mkRow 1, mkRow 2, mkRow (mkRat 5 2), mkRow 3, mkRow 5]

/-- C1: every row of the filtered output has a present carat value that is
at most 2.5, and the comparison is inclusive: any input row whose carat is
exactly 2.5 is kept by the filter. -/
theorem C1_filtered_rows_le_threshold (df : DataFrame) (r : Row)
    (h : r ∈ smaller df) :
    (∃ c, r.carat = some c ∧ c ≤ mkRat 5 2) ∧
    (∀ r2 ∈ df, r2.carat = some (mkRat 5 2) → r2 ∈ smaller df) := by
  constructor
  · have h2 := List.of_mem_filter h
    unfold caratLE at h2
    cases hc : r.carat with
    | none => rw [hc] at h2; exact absurd h2 (by simp)
    | some c =>
      rw [hc] at h2
      exact ⟨c, rfl, of_decide_eq_true h2⟩
  · intro r2 hmem hcar
    refine List.mem_filter.mpr ⟨hmem, ?_⟩
    unfold caratLE
    rw [hcar]
    simp

theorem C1_witness :
    ∃ c, (mkRow (mkRat 5 2)).carat = some c ∧ c ≤ mkRat 5 2 :=
  (C1_filtered_rows_le_threshold synth5 (mkRow (mkRat 5 2)) (by decide)).1

/-- C2: on the fixed synthetic dataset with carat values
1.0, 2.0, 2.5, 3.0, 5.0, the filter at threshold 2.5 returns exactly the
three rows with values 1.0, 2.0, 2.5, in order. -/
theorem C2_synthetic_dataset_filter :
    smaller synth5 = [mkRow 1, mkRow 2, mkRow (mkRat 5 2)] ∧
    (smaller synth5).map (fun r => r.carat) =
      [some 1, some 2, some (mkRat 5 2)] := by
  constructor <;> decide

/-- C4: the filter is idempotent: filtering an already-filtered data frame
by the same predicate returns the same data frame, rows and order alike. -/
theorem C4_filter_idempotent (df : DataFrame) :
    smaller (smaller df) = smaller df := by
  unfold smaller DataFrame.query_carat_le
  rw [List.filter_filter]
  congr 1
  funext r
  cases caratLE (mkRat 5 2) r <;> rfl

/-- C5: the filtered output never has more rows than the input, and every
row of the output is a row of the input. -/
theorem C5_subset_and_length (df : DataFrame) :
    (smaller df).length ≤ df.length ∧
    ∀ r, r ∈ smaller df → r ∈ df := by
  refine ⟨List.length_filter_le _ _, ?_⟩
  intro r hr
  exact List.mem_of_mem_filter hr

theorem C5_witness :
    (smaller synth5).length ≤ synth5.length ∧ mkRow 1 ∈ synth5 :=
  ⟨(C5_subset_and_length synth5).1,
   (C5_subset_and_length synth5).2 (mkRow 1) (by decide)⟩

/-- C9: the filter preserves relative row order: the filtered output is a
sublist of the input, i.e. its rows appear in the same relative order as
in the input data frame. -/
theorem C9_filter_preserves_order (df : DataFrame) :
    (smaller df).Sublist df :=
  List.filter_sublist df

/-- C10: rows whose carat cell is missing (NaN) are excluded: no row of the
filtered output has a missing carat value, because the comparison
"carat <= 2.5" evaluates to false for a missing value. -/
theorem C10_nan_rows_excluded (df : DataFrame) (r : Row)
    (h : r ∈ smaller df) : r.carat ≠ none := by
  intro hnone
  have h2 := List.of_mem_filter h
  unfold caratLE at h2
  rw [hnone] at h2
  exact absurd h2 (by simp)

theorem C10_witness : (mkRow 1).carat ≠ none :=
  C10_nan_rows_excluded [mkRow 1, nanRow] (mkRow 1) (by decide)

/-- The y-encoding used by the script: alt.Y("count()"). -/
inductive YAgg
  | count
deriving DecidableEq

/-- The mark used by the script: mark_line(). -/
inductive Mark
  | line
deriving DecidableEq

/-- The declarative chart description built on lines 11 to 13: the data, the
x-field name, the y-aggregation and the mark type. -/
structure Chart where
  data : DataFrame
  xField : String
  yAgg : YAgg
  mark : Mark

/-- Look a numeric (rational) column up by its CSV name. -/
def getNumField (r : Row) : String → Option ℚ
  | "carat" => r.carat
  | "depth" => r.depth
  | "table" => r.table
  | "x" => r.x
  | "y" => r.y
  | "z" => r.z
  | _ => none

/-- Lines 11 to 13 of the script:
"chart = alt.Chart(smaller).encode(alt.X(#carat#), alt.Y(#count()#)).mark_line()". -/
def chart (smallerDf : DataFrame) : Chart :=
  { data := smallerDf, xField := "carat", yAgg := YAgg.count, mark := Mark.line }

/-- Modelled from the spec: the rendering of the chart is performed by the
third-party visualization library, which is not part of this repository; the
spec states that the count aggregation groups rows by the x-field value and
counts occurrences per group, rendered as a connected line in value order.
Accordingly, evaluation of a count-aggregated chart lists, for each distinct
x-field value in ascending order, the number of rows holding that value.
The chart description itself (data, field, aggregation, mark) is the one
built by the code. -/
def evalChart (c : Chart) : List (ℚ × Nat) :=
  match c.yAgg with
  | YAgg.count =>
    (((c.data.filterMap (fun r => getNumField r c.xField)).dedup).insertionSort
        (· ≤ ·)).map
      (fun v =>
        (v, (c.data.filter (fun r => decide (getNumField r c.xField = some v))).length))

/-- C3: for every filtered table, the chart groups the rows by their carat
value, the plotted y-value of a group is the number of rows in that group,
the x-values are exactly the carat values present, the points come in
strictly ascending carat order, and they are drawn as a line. -/
theorem C3_count_aggregation_line (df : DataFrame) :
    ((evalChart (chart df)).map Prod.fst).Sorted (· < ·) ∧
    (∀ p ∈ evalChart (chart df),
      p.2 = (df.filter (fun r => decide (r.carat = some p.1))).length) ∧
    (∀ v : ℚ, (∃ p ∈ evalChart (chart df), p.1 = v) ↔ ∃ r ∈ df, r.carat = some v) ∧
    (chart df).mark = Mark.line := by
  have hev : evalChart (chart df) =
      (((df.filterMap (fun r => r.carat)).dedup).insertionSort (· ≤ ·)).map
        (fun v => (v, (df.filter (fun r => decide (r.carat = some v))).length)) := rfl
  refine ⟨?_, ?_, ?_, rfl⟩
  · have hfst : (evalChart (chart df)).map Prod.fst =
        ((df.filterMap (fun r => r.carat)).dedup).insertionSort (· ≤ ·) := by
      rw [hev, List.map_map]
      exact List.map_id _
    rw [hfst]
    have hnd : (((df.filterMap (fun r => r.carat)).dedup).insertionSort
        (· ≤ ·)).Nodup :=
      ((List.perm_insertionSort _ _).nodup_iff).mpr (List.nodup_dedup _)
    exact (List.sorted_insertionSort _ _).lt_of_le hnd
  · intro p hp
    rw [hev] at hp
    obtain ⟨v, _, rfl⟩ := List.mem_map.mp hp
    rfl
  · intro v
    rw [hev]
    simp [List.mem_map, List.mem_dedup, List.mem_filterMap]

theorem C3_witness :
    ((1 : ℚ), (1 : Nat)).2 =
      (synth5.filter (fun r => decide (r.carat = some ((1 : ℚ), (1 : Nat)).1))).length :=
  (C3_count_aggregation_line synth5).2.1 ((1 : ℚ), (1 : Nat)) (by decide)

/-- State of the script around line 9: the binding of the loaded diamonds
table and the binding of the filtered smaller table. -/
structure ScriptState where
  diamonds : DataFrame
  smaller : DataFrame
deriving DecidableEq

/-- Line 9 as a state transformation: the query builds a new data frame,
bound to the name smaller; the diamonds binding is left untouched. -/
def filterStep (diamonds : DataFrame) : ScriptState :=
  { diamonds := diamonds, smaller := diamonds.query_carat_le (mkRat 5 2) }

/-- C6: the filtering step has no side effects: after the step the loaded
table is unchanged, and identical input tables give identical output
tables (determinism). -/
theorem C6_filter_pure (df df2 : DataFrame) (h : df = df2) :
    (filterStep df).diamonds = df ∧
    (filterStep df).smaller = (filterStep df2).smaller ∧
    (filterStep df).smaller = smaller df := by
  subst h
  exact ⟨rfl, rfl, rfl⟩

theorem C6_witness :
    (filterStep synth5).diamonds = synth5 ∧
    (filterStep synth5).smaller = (filterStep synth5).smaller ∧
    (filterStep synth5).smaller = smaller synth5 :=
  C6_filter_pure synth5 synth5 rfl

/-- A file system, as far as the script observes it: a map from paths to
file contents (byte lists); none means no file exists at the path. -/
def FileSystem : Type := String → Option (List Nat)

/-- The fixed relative destination path of line 15 of the script. -/
def outPath : String := "markdown/diamonds_25.png"

/-- Modelled from the spec: the export step chart.save(path) is implemented
inside the third-party visualization library, absent from src; per the spec
it stores the rendered image bytes at the destination path, replacing any
previous contents there (overwrite, not append, and no existence error),
and leaves every other path untouched. -/
def save (fs : FileSystem) (path : String) (img : List Nat) : FileSystem :=
  fun p => if p = path then some img else fs p

/-- C8: when a file already exists at the destination path, re-running the
export succeeds and replaces its contents entirely: the destination ends up
holding exactly the new image bytes, never the old contents with the new
appended, and every other path is untouched. -/
theorem C8_save_overwrites (fs : FileSystem) (img old : List Nat)
    (h : fs outPath = some old) :
    save fs outPath img outPath = some img ∧
    (old ≠ [] → save fs outPath img outPath ≠ some (old ++ img)) ∧
    ∀ p, p ≠ outPath → save fs outPath img p = fs p := by
  refine ⟨by simp [save], ?_, ?_⟩
  · intro hne hcontr
    have hsave : save fs outPath img outPath = some img := by simp [save]
    rw [hsave] at hcontr
    have heq : img = old ++ img := Option.some.inj hcontr
    have hlen := congrArg List.length heq
    rw [List.length_append] at hlen
    have h0 : old.length = 0 := by omega
    exact hne (List.eq_nil_of_length_eq_zero h0)
  · intro p hp
    simp [save, hp]

/-- An example file system whose destination file already exists. -/
def fs0 : FileSystem := fun p => if p = outPath then some [0] else none

theorem C8_witness :
    save fs0 outPath [1] outPath = some [1] ∧
    save fs0 outPath [1] "other" = fs0 "other" ∧
    save fs0 outPath [1] outPath ≠ some ([0] ++ [1]) := by
  have happ := C8_save_overwrites fs0 [1] [0] (by simp [fs0])
  exact ⟨happ.1, happ.2.2 "other" (by decide), happ.2.1 (by decide)⟩
